import Mathlib

/-!
Verification development for the Stock_Market_Autonomity simulation engine.

Shallow embedding of the core components:
  - `MarketEnvironment.step` (src/backend/market/market.py) — endogenous
    price-impact model, modelled over exact rationals.
  - `RegulatorAgent.review_trade` (src/backend/regulator/regulator.py) —
    compliance rule engine.
  - `TradingAgent.act` / `execute_action` (src/backend/agents/base_agent.py).
  - `OrchestratorAgent.run_step` per-tick loop and the whale-crash override
    (src/backend/simulation/orchestrator.py).
  - The per-agent circuit breaker (orchestrator step 7 together with
    `TradingAgent.get_risk_metrics`).

Python floats are modelled as rationals (ℚ); Python ints as ℤ.  Python's
`int(x)` truncates toward zero, modelled by `pyTrunc`.  Python's
`round(x, 2)` rounds half-to-even, modelled by `pyRound2`.
Dictionary access `d.get(k, default)` is modelled by `Option` fields with
`Option.getD`, matching the exact key names used at each access site.
-/

/-- Python `int(x)` for a rational: truncation toward zero. -/
def pyTrunc (q : ℚ) : ℤ := if 0 ≤ q then ⌊q⌋ else ⌈q⌉

/-- Round a rational to the nearest integer, ties to even
(Python / IEEE-754 "banker's rounding"). -/
def roundHalfEven (x : ℚ) : ℤ :=
  let f : ℤ := ⌊x⌋
  let r : ℚ := x - f
  if r < 1/2 then f
  else if r > 1/2 then f + 1
  else if Even f then f else f + 1

/-- Python `round(x, 2)`: two-decimal rounding, ties to even. -/
def pyRound2 (x : ℚ) : ℚ := (roundHalfEven (x * 100) : ℚ) / 100

/- ------------------------------------------------------------------ -/

/- MarketEnvironment (src/backend/market/market.py)                    -/

/- ------------------------------------------------------------------ -/

/-- State of `MarketEnvironment`: the immutable historical close series
(`self.df["Close"]`), the sensitivity coefficient, the step counter, the
current simulated price and the simulated price history. -/
structure MarketEnv where
  closes : List ℚ
  sensitivity : ℚ
  currentStep : ℕ
  currentPrice : ℚ
  priceHistorySimulated : List ℚ
  deriving Repr, DecidableEq

/-- `MarketEnvironment.__init__` / `reset`: step 0, simulated price seeded
from the first historical close (`float(self.df.iloc[0]["Close"])`). -/
def MarketEnv.init (closes : List ℚ) (sensitivity : ℚ) : MarketEnv :=
  { closes := closes
    sensitivity := sensitivity
    currentStep := 0
    currentPrice := closes.headD 0
    priceHistorySimulated := [closes.headD 0] }

/-- `total_bars = len(self.df)`. -/
def MarketEnv.totalBars (m : MarketEnv) : ℕ := m.closes.length

/-- The clamped per-step impact: `impact = sensitivity_factor * net_volume`
then `impact = max(min(impact, 0.20), -0.20)`. -/
def MarketEnv.impactOf (m : MarketEnv) (netVolume : ℚ) : ℚ :=
  max (min (m.sensitivity * netVolume) (1/5)) (-(1/5))

/-- `MarketEnvironment.step(net_volume)`.  Returns the new state together
with the `finished` flag.  At the last bar the state is returned unchanged
with `finished = True`; otherwise the step advances, the next historical
close is scaled by `(1 + impact)` and floored at `0.01`. -/
def MarketEnv.step (m : MarketEnv) (netVolume : ℚ) : MarketEnv × Bool :=
  if m.totalBars - 1 ≤ m.currentStep then
    (m, true)
  else
    let step' := m.currentStep + 1
    let histPriceNext := m.closes.getD step' 0
    let impact := m.impactOf netVolume
    let simulatedPrice := histPriceNext * (1 + impact)
    let simulatedPrice := max simulatedPrice (1/100)
    ({ m with
        currentStep := step'
        currentPrice := simulatedPrice
        priceHistorySimulated := m.priceHistorySimulated ++ [simulatedPrice] },
     false)

/-- Iterate `step` with a fixed net volume (the full-run replay scenario). -/
def MarketEnv.run (m : MarketEnv) (netVolume : ℚ) : ℕ → MarketEnv
  | 0 => m
  | k + 1 => ((m.step netVolume).1).run netVolume k

/- ------------------------------------------------------------------ -/

/- RegulatorAgent (src/backend/regulator/regulator.py)                 -/

/- ------------------------------------------------------------------ -/

/-- A Python trade-action dict.  The source reads the keys `"type"`
(regulator side), `"action"` (agent / orchestrator side), `"ticker"` and
`"quantity"`; the two type-ish keys are optional because different
producers set different ones. -/
structure TradeAction where
  actKey : Option String := none
  tyKey : Option String := none
  ticker : String := ""
  quantity : ℤ := 0
  deriving Repr, DecidableEq

/-- `agent_state` dict handed to `review_trade`; field defaults mirror the
source's `.get` defaults (`positions` → `{}`, `portfolio_value` → `1`). -/
structure AgentSnapshot where
  cash : ℚ := 0
  positions : List (String × ℤ) := []
  portfolioValue : ℚ := 1
  deriving Repr, DecidableEq

/-- `market_state` (current bar) fields used by `review_trade`; defaults
mirror `.get("Close", 0)` and `.get("Volume", 1)`. -/
structure BarInfo where
  close : ℚ := 0
  volume : ℚ := 1
  deriving Repr, DecidableEq

/-- Python `dict.get(ticker, 0)` over a positions dict. -/
def posGet (ps : List (String × ℤ)) (t : String) : ℤ :=
  (List.lookup t ps).getD 0

/-- `self._recent_orders`: agent name → list of recorded steps. -/
abbrev RegOrders := List (String × List ℤ)

def regGet (reg : RegOrders) (name : String) : List ℤ :=
  (List.lookup name reg).getD []

def regSet (reg : RegOrders) (name : String) (l : List ℤ) : RegOrders :=
  match reg with
  | [] => [(name, l)]
  | (k, v) :: t => if k = name then (name, l) :: t else (k, v) :: regSet t name l

/-- Substring check on character lists (`needle in haystack`). -/
def charsContain (needle : List Char) : List Char → Bool
  | [] => needle.isEmpty
  | c :: t => needle.isPrefixOf (c :: t) || charsContain needle t

/-- Python `"adversarial" in agent_name.lower()`. -/
def isAdversarialName (name : String) : Bool :=
  charsContain "adversarial".toList (name.toList.map Char.toLower)

/-- Result of `review_trade`: decision, adjusted action and
`count_at_step` (the number of reasons recorded). -/
structure Verdict where
  decision : String
  adjusted : TradeAction
  countAtStep : ℕ
  deriving Repr, DecidableEq

/-- Rule 1 firing condition: BUY whose resulting position value exceeds
30% of portfolio value (`portfolio_value > 0 and position_value /
portfolio_value > MAX_POSITION_PCT`). -/
def rule1Cond (actionType : String) (quantity heldQty : ℤ) (close pv : ℚ) : Bool :=
  actionType == "BUY" && decide (0 < pv)
    && decide (((heldQty + quantity : ℤ) : ℚ) * close / pv > 3/10)

/-- Rule 1's capped quantity: `max(0, int((0.30*pv - held*close)/close))`
when `close > 0`, else `0`. -/
def rule1MaxAllowed (heldQty : ℤ) (close pv : ℚ) : ℤ :=
  max 0 (if 0 < close then pyTrunc ((3/10 * pv - (heldQty : ℚ) * close) / close) else 0)

/-- The action after the position-limit rule. -/
def rule1Adjusted (action : TradeAction) (heldQty : ℤ) (close pv : ℚ) : TradeAction :=
  if rule1Cond (action.tyKey.getD "HOLD") action.quantity heldQty close pv then
    { action with quantity := rule1MaxAllowed heldQty close pv }
  else action

/-- Rule 2 firing condition: `quantity > avg_volume * MAX_ORDER_VOLUME_PCT`. -/
def rule2Cond (quantity : ℤ) (avgVolume : ℚ) : Bool :=
  decide ((quantity : ℚ) > avgVolume * (1/10))

/-- Rule 2's allowed quantity: `max(1, int(avg_volume * 0.10))`. -/
def rule2Allowed (avgVolume : ℚ) : ℤ :=
  max 1 (pyTrunc (avgVolume * (1/10)))

/-- `is_large = quantity > (avg_volume * 0.05)`. -/
def isLargeOrder (quantity : ℤ) (avgVolume : ℚ) : Bool :=
  decide ((quantity : ℚ) > avgVolume * (1/20))

/-- The agent's recorded large-order steps after appending the current
step and pruning to the trailing window
(`current_step - s <= BURST_WINDOW`). -/
def prunedOrders (reg : RegOrders) (agentName : String) (currentStep : ℤ) : List ℤ :=
  ((regGet reg agentName) ++ [currentStep]).filter (fun s => decide (currentStep - s ≤ 5))

/-- `RegulatorAgent.review_trade` (src/backend/regulator/regulator.py,
lines 42-161).  Returns the verdict and the updated `_recent_orders`
state.  Reason strings are display-only and are modelled by the reason
count (`count_at_step`). -/
def reviewTrade (reg : RegOrders) (agentName : String) (action : TradeAction)
    (agentState : AgentSnapshot) (market : BarInfo) (currentStep : ℤ) :
    Verdict × RegOrders :=
  let actionType := action.tyKey.getD "HOLD"
  let quantity := action.quantity
  let ticker := action.ticker
  -- HOLD always approved
  if actionType = "HOLD" ∨ quantity = 0 then
    (⟨"APPROVE", action, 0⟩, reg)
  else
    let close := market.close
    let volume := market.volume
    let portfolioValue := agentState.portfolioValue
    let heldQty := posGet agentState.positions ticker
    -- Rule 1: max position size
    let r1 := rule1Cond actionType quantity heldQty close portfolioValue
    let adjusted1 := rule1Adjusted action heldQty close portfolioValue
    let decision1 := if r1 then "WARN" else "APPROVE"
    let count1 : ℕ := if r1 then 1 else 0
    -- Rule 2: max order size vs volume
    let avgVolume := max volume 1
    let r2 := rule2Cond quantity avgVolume
    let adjusted2 :=
      if r2 then { adjusted1 with quantity := min adjusted1.quantity (rule2Allowed avgVolume) }
      else adjusted1
    let decision2 := if r2 then "WARN" else decision1
    let count2 := count1 + (if r2 then 1 else 0)
    -- Rule 3: manipulation / burst detection
    let isLarge := isLargeOrder quantity avgVolume
    let newOrders := prunedOrders reg agentName currentStep
    let reg' := if isLarge then regSet reg agentName newOrders else reg
    let burst := isLarge && decide (3 ≤ newOrders.length)
    let adjusted3 :=
      if burst then { adjusted2 with tyKey := some "HOLD", quantity := 0 }
      else adjusted2
    let decision3 := if burst then "BLOCK" else decision2
    let count3 := count2 + (if burst then 1 else 0)
    -- Adversarial-specific flag
    let advFlag := isAdversarialName agentName && isLarge && !(decision3 == "BLOCK")
    let decision4 := if advFlag && decision3 == "APPROVE" then "WARN" else decision3
    let count4 := count3 + (if advFlag then 1 else 0)
    (⟨decision4, adjusted3, count4⟩, reg')

/- ------------------------------------------------------------------ -/

/- TradingAgent (src/backend/agents/base_agent.py)                     -/

/- ------------------------------------------------------------------ -/

/-- A decision-plan dict as consumed by `TradingAgent.act`.  `act` reads
the keys `"intent"`, `"size_factor"` and `"ticker"`; the whale-dump
decision built by the orchestrator instead carries `"action"` and
`"quantity"` keys (modelled as the extra optional fields, which `act`
never reads). -/
structure DecisionPlan where
  intent : Option String := none
  sizeFactor : Option ℚ := none
  ticker : Option String := none
  actionK : Option String := none
  quantityK : Option ℤ := none
  deriving Repr, DecidableEq

/-- A market bar dict as seen by the agents.  `Close` and `Volume` are
always present in the source data; the simulated-price keys are optional
(the orchestrator injects `simulated_price`, `_bar_to_dict` injects
`SimulatedPrice`). -/
structure TickBar where
  Close : ℚ
  Volume : ℚ
  SimulatedPrice : Option ℚ := none
  simulatedPriceKey : Option ℚ := none
  closeLowerKey : Option ℚ := none
  deriving Repr, DecidableEq

/-- The regulator's view of a bar: `.get("Close", 0)` / `.get("Volume", 1)`
over a bar dict that has both keys. -/
def barInfoOf (b : TickBar) : BarInfo := ⟨b.Close, b.Volume⟩

/-- Python `a or b` on an optional number: `None` and `0` fall through. -/
def orFalsy (a : Option ℚ) (b : ℚ) : ℚ :=
  match a with
  | none => b
  | some x => if x = 0 then b else x

/-- The price-extraction chain in `TradingAgent.act` (and `perceive`):
`bar.get("SimulatedPrice") or bar.get("simulated_price") or
bar.get("Close") or bar.get("close", 0)`, then `price or 0`. -/
def extractPrice (bar : TickBar) : ℚ :=
  orFalsy bar.SimulatedPrice
    (orFalsy bar.simulatedPriceKey
      (orFalsy (some bar.Close) (orFalsy bar.closeLowerKey 0)))

/-- Python `action.get("action") or action.get("type", "HOLD")`
(orchestrator's `adj_type` and `execute_action`'s `action_type`). -/
def effectiveType (a : TradeAction) : String :=
  match a.actKey with
  | some s => if s = "" then a.tyKey.getD "HOLD" else s
  | none => a.tyKey.getD "HOLD"

/-- `TradingAgent.act(decision_plan)` (base_agent.py lines 134-176),
shared by every agent variant (no subclass overrides it).  Maps the
plan's intent to an action dict keyed `"action"`, computing the quantity
from `size_factor`:
BUY → `int(cash * size_factor / price)` when `price > 0`;
SELL → `max(int(held * size_factor), 0)` when `size_factor < 1.0`,
else the whole held quantity. -/
def agentAct (cash : ℚ) (positions : List (String × ℤ)) (bar : TickBar)
    (plan : DecisionPlan) : TradeAction :=
  let intent := plan.intent.getD "HOLD"
  let sizeFactor := plan.sizeFactor.getD 0
  let ticker := plan.ticker.getD ""
  let price := extractPrice bar
  let quantity : ℤ :=
    if intent = "BUY" ∧ 0 < price then pyTrunc (cash * sizeFactor / price)
    else if intent = "SELL" then
      let held := posGet positions ticker
      if sizeFactor < 1 then max (pyTrunc ((held : ℚ) * sizeFactor)) 0 else held
    else 0
  ⟨some intent, none, ticker, quantity⟩

/-- Python dict assignment `d[t] = q` over an association list. -/
def posSet (ps : List (String × ℤ)) (t : String) (q : ℤ) : List (String × ℤ) :=
  match ps with
  | [] => [(t, q)]
  | (k, v) :: r => if k = t then (t, q) :: r else (k, v) :: posSet r t q

/-- Python `d.pop(t, None)`. -/
def posDrop (ps : List (String × ℤ)) (t : String) : List (String × ℤ) :=
  match ps with
  | [] => []
  | (k, v) :: r => if k = t then r else (k, v) :: posDrop r t

/-- `TradingAgent.execute_action(action, current_price)` (base_agent.py
lines 298-338) restricted to cash and positions (the average-cost-basis
bookkeeping touches no claim).  BUY requires `cost <= cash`; SELL is
clamped to the held quantity and the entry is dropped when it reaches
zero. -/
def executeAction (cash : ℚ) (positions : List (String × ℤ))
    (action : TradeAction) (currentPrice : ℚ) : ℚ × List (String × ℤ) :=
  let actionType := effectiveType action
  let ticker := action.ticker
  let quantity := action.quantity
  if actionType = "BUY" ∧ 0 < quantity then
    let cost := (quantity : ℚ) * currentPrice
    if cost ≤ cash then
      (cash - cost, posSet positions ticker (posGet positions ticker + quantity))
    else (cash, positions)
  else if actionType = "SELL" ∧ 0 < quantity then
    let currentQty := posGet positions ticker
    let sellQty := min quantity currentQty
    if 0 < sellQty then
      let positions' := posSet positions ticker (currentQty - sellQty)
      (cash + (sellQty : ℚ) * currentPrice,
       if currentQty - sellQty = 0 then posDrop positions' ticker else positions')
    else (cash, positions)
  else (cash, positions)

/-- `TradingAgent.get_portfolio_value(current_price, ticker)`: cash plus
held quantity times price, summed over positions (filtered to `ticker`
when it is non-empty). -/
def getPortfolioValue (cash : ℚ) (positions : List (String × ℤ))
    (currentPrice : ℚ) (ticker : String) : ℚ :=
  cash + ((positions.filter (fun p => ticker == "" || p.1 == ticker)).map
    (fun p => (p.2 : ℚ) * currentPrice)).sum

/-- `OrchestratorAgent._build_whale_dump(whale)` (orchestrator.py lines
629-640): the forced full-dump decision dict
`{"action": "SELL", "ticker": ticker, "quantity": held, "reasoning": ...}`.
Note it uses the `"action"`/`"quantity"` keys, not the
`"intent"`/`"size_factor"` keys that `TradingAgent.act` reads. -/
def buildWhaleDump (whalePositions : List (String × ℤ)) (simTicker : String) :
    DecisionPlan :=
  { intent := none
    sizeFactor := none
    ticker := some simTicker
    actionK := some "SELL"
    quantityK := some (posGet whalePositions simTicker) }

/- ------------------------------------------------------------------ -/

/- OrchestratorAgent.run_step per-tick loop                            -/

/- (src/backend/simulation/orchestrator.py, lines 313-441)             -/

/- ------------------------------------------------------------------ -/

/-- Portfolio-relevant state of one `TradingAgent`. -/
structure AgentPortfolio where
  name : String
  cash : ℚ
  positions : List (String × ℤ)
  active : Bool := true
  halted : Bool := false
  deriving Repr, DecidableEq

/-- One agent's inputs for a tick: its portfolio, the decision plan its
`reason()` produces on this tick (supplied as an input because two of the
strategies are randomized), and whether it is the whale
(`isinstance(agent, AdversarialAgent)`). -/
structure TickAgent where
  agent : AgentPortfolio
  plan : DecisionPlan
  isWhale : Bool := false
  deriving Repr, DecidableEq

/-- Tick-wide inputs of `run_step`: the simulation ticker, the current
bar, and the crash-override state. -/
structure TickConfig where
  simTicker : String
  bar : TickBar
  crashModeActive : Bool := false
  crashTriggeredStep : Option ℤ := none
  currentStep : ℤ := 0
  deriving Repr, DecidableEq

/-- A record of one compliance review performed during the tick: the
proposing agent, the submitted action, the agent-state snapshot handed to
the regulator, and the verdict. -/
structure ReviewRecord where
  agentName : String
  proposal : TradeAction
  agentState : AgentSnapshot
  verdict : Verdict
  deriving Repr, DecidableEq

/-- Accumulator state of the per-tick loop. -/
structure TickState where
  regOrders : RegOrders
  netVolume : ℚ
  reviews : List ReviewRecord
  agentsOut : List AgentPortfolio
  deriving Repr, DecidableEq

/-- The plan the orchestrator hands to `act` for this agent: on the
crash-trigger tick the whale's own plan is replaced by
`_build_whale_dump` (orchestrator.py lines 348-364). -/
def tickPlan (cfg : TickConfig) (ta : TickAgent) : DecisionPlan :=
  if cfg.crashModeActive ∧ cfg.crashTriggeredStep = some cfg.currentStep ∧ ta.isWhale
  then buildWhaleDump ta.agent.positions cfg.simTicker
  else ta.plan

/-- The action submitted to the compliance review for this agent.
(`action.setdefault("ticker", self.ticker)` is a no-op: the dict
produced by `act` always carries a `"ticker"` key.) -/
def tickAction (cfg : TickConfig) (ta : TickAgent) : TradeAction :=
  agentAct ta.agent.cash ta.agent.positions cfg.bar (tickPlan cfg ta)

/-- `_build_agent_state(agent, close)`: the snapshot handed to the
regulator. -/
def tickSnapshot (cfg : TickConfig) (ta : TickAgent) : AgentSnapshot :=
  ⟨ta.agent.cash, ta.agent.positions,
   getPortfolioValue ta.agent.cash ta.agent.positions cfg.bar.Close cfg.simTicker⟩

/-- The compliance review of this agent's submitted action. -/
def tickReview (cfg : TickConfig) (st : TickState) (ta : TickAgent) :
    Verdict × RegOrders :=
  reviewTrade st.regOrders ta.agent.name (tickAction cfg ta) (tickSnapshot cfg ta)
    (barInfoOf cfg.bar) cfg.currentStep

/-- The body of the `for agent in self.agents` loop in `run_step`:
skip inactive and halted agents; otherwise act, review, apply
APPROVE/WARN actions to the portfolio, and accumulate signed net volume
for non-BLOCK actions with positive adjusted quantity. -/
def processAgent (cfg : TickConfig) (st : TickState) (ta : TickAgent) : TickState :=
  if ¬ta.agent.active then
    { st with agentsOut := st.agentsOut ++ [ta.agent] }
  else if ta.agent.halted then
    { st with agentsOut := st.agentsOut ++ [ta.agent] }
  else
    let rv := tickReview cfg st ta
    let adjusted := rv.1.adjusted
    let applied :=
      if rv.1.decision = "APPROVE" ∨ rv.1.decision = "WARN" then
        executeAction ta.agent.cash ta.agent.positions adjusted cfg.bar.Close
      else (ta.agent.cash, ta.agent.positions)
    let netVolume' :=
      if rv.1.decision ≠ "BLOCK" ∧ 0 < adjusted.quantity then
        if effectiveType adjusted = "BUY" then st.netVolume + (adjusted.quantity : ℚ)
        else if effectiveType adjusted = "SELL" then
          st.netVolume - (adjusted.quantity : ℚ)
        else st.netVolume
      else st.netVolume
    { regOrders := rv.2
      netVolume := netVolume'
      reviews := st.reviews
        ++ [⟨ta.agent.name, tickAction cfg ta, tickSnapshot cfg ta, rv.1⟩]
      agentsOut := st.agentsOut
        ++ [{ ta.agent with cash := applied.1, positions := applied.2 }] }

/-- The per-tick loop from an arbitrary accumulator state. -/
def runTickFrom (cfg : TickConfig) (st : TickState) (agents : List TickAgent) :
    TickState :=
  agents.foldl (processAgent cfg) st

/-- One executed (non-halted, non-finished) tick of `run_step`, starting
from the regulator's accumulated burst state `reg0`. -/
def runTick (cfg : TickConfig) (reg0 : RegOrders) (agents : List TickAgent) :
    TickState :=
  runTickFrom cfg ⟨reg0, 0, [], []⟩ agents

/-- The signed quantity of an adjusted action (+BUY, −SELL, 0 otherwise),
using the orchestrator's `adj_type` key resolution. -/
def signedQty (a : TradeAction) : ℤ :=
  if effectiveType a = "BUY" then a.quantity
  else if effectiveType a = "SELL" then -a.quantity
  else 0

/-- The signed contribution recorded by the orchestrator for one review:
`+qty` for a non-BLOCK BUY, `-qty` for a non-BLOCK SELL, `0` otherwise. -/
def recordSigned (r : ReviewRecord) : ℤ :=
  if r.verdict.decision = "BLOCK" then 0 else signedQty r.verdict.adjusted

/- ------------------------------------------------------------------ -/

/- Per-agent circuit breaker                                           -/

/- (orchestrator.py lines 443-452 + base_agent.py get_risk_metrics)    -/

/- ------------------------------------------------------------------ -/

/-- Per-agent breaker state: the agent's portfolio high-water mark
(`TradingAgent._peak_value`) and its `halted` flag. -/
structure BreakerState where
  peakValue : ℚ
  halted : Bool
  deriving Repr, DecidableEq

/-- `get_risk_metrics`' reported current drawdown in percent: the raw
ratio against the (already-updated) high-water mark, times 100, rounded
to two decimals (`round(current_dd * 100, 2)`). -/
def ddPctRounded (peak pv : ℚ) : ℚ :=
  pyRound2 ((if 0 < peak then (pv - peak) / peak else 0) * 100)

/-- One end-of-tick breaker evaluation for an active agent
(orchestrator.py lines 445-451): `get_risk_metrics` first raises the
high-water mark to the current portfolio value, then the orchestrator
sets `halted` when the rounded drawdown percentage is ≤ -10.0; an
already-halted agent stays halted. -/
def breakerStep (s : BreakerState) (pv : ℚ) : BreakerState :=
  let peak := max s.peakValue pv
  ⟨peak, s.halted || decide (ddPctRounded peak pv ≤ -10)⟩

/-- The breaker state after a sequence of end-of-tick portfolio values. -/
def breakerRun (s : BreakerState) : List ℚ → BreakerState
  | [] => s
  | pv :: rest => breakerRun (breakerStep s pv) rest

theorem pyTrunc_cast_le (q : ℚ) (hq : 0 ≤ q) : (pyTrunc q : ℚ) ≤ q := by
  rw [pyTrunc, if_pos hq]
  exact Int.floor_le q

theorem pyTrunc_nonpos (q : ℚ) (hq : q < 0) : pyTrunc q ≤ 0 := by
  rw [pyTrunc, if_neg (not_le.mpr hq)]
  exact Int.ceil_le.mpr (by exact_mod_cast le_of_lt hq)

example :
    ((MarketEnv.init [10, 20] (1/100000)).step 1000).1.currentPrice
      = 20 * (1 + 1/100) := by
  norm_num [MarketEnv.init, MarketEnv.step, MarketEnv.totalBars, MarketEnv.impactOf]

/-- Claim C6: after every call to `MarketEnvironment.step(net_volume)` that
advances a bar, the new simulated price is strictly positive and the
realized impact magnitude is at most 0.20: the new price equals
`historical_close_next * (1 + clamp(sensitivity_factor * net_volume, -0.20, 0.20))`,
floored at the small positive epsilon 0.01. -/
theorem market_step_price_positive_impact_bounded
    (m : MarketEnv) (v : ℚ) (h : m.currentStep < m.totalBars - 1) :
    (m.step v).1.currentPrice
        = max ((m.closes.getD (m.currentStep + 1) 0) * (1 + m.impactOf v)) (1/100)
      ∧ 0 < (m.step v).1.currentPrice
      ∧ |m.impactOf v| ≤ 1/5 := by
  have hguard : ¬ (m.totalBars - 1 ≤ m.currentStep) := not_le.mpr h
  refine ⟨?_, ?_, ?_⟩
  · simp [MarketEnv.step, hguard]
  · simp only [MarketEnv.step, hguard, if_false]
    exact lt_of_lt_of_le (by norm_num) (le_max_right _ _)
  · rw [abs_le]
    constructor
    · exact le_max_right _ _
    · exact max_le (min_le_right _ _) (by norm_num)

/-- Witness for C6 at a concrete advancing state. -/
theorem market_step_price_positive_impact_bounded_witness :
    ((MarketEnv.init [10, 20] (1/100000)).step 1000).1.currentPrice
        = max (((MarketEnv.init [10, 20] (1/100000)).closes.getD 1 0)
            * (1 + (MarketEnv.init [10, 20] (1/100000)).impactOf 1000)) (1/100)
      ∧ 0 < ((MarketEnv.init [10, 20] (1/100000)).step 1000).1.currentPrice
      ∧ |(MarketEnv.init [10, 20] (1/100000)).impactOf 1000| ≤ 1/5 :=
  market_step_price_positive_impact_bounded (MarketEnv.init [10, 20] (1/100000))
    1000 (by decide)

/-- Counterexample to claim C7 as stated: with a historical close below the
0.01 floor, a zero-net-volume run does NOT reproduce the historical series
exactly (the floored bar differs). -/
theorem zero_volume_replay_counterexample :
    ((MarketEnv.init [1, 1/200] (1/100000)).run 0 1).priceHistorySimulated
      ≠ [1, 1/200] := by
  show ((((MarketEnv.init [1, 1/200] (1/100000)).step 0).1).run 0 0).priceHistorySimulated
      ≠ [1, 1/200]
  norm_num [MarketEnv.run, MarketEnv.step, MarketEnv.init, MarketEnv.totalBars,
    MarketEnv.impactOf]

/-- Helper for C7: invariant of the zero-net-volume run — the simulated
history is the prefix of the historical closes, provided all closes are at
least the 0.01 floor. -/
theorem MarketEnv.replay_aux (closes : List ℚ)
    (hfloor : ∀ c ∈ closes, 1/100 ≤ c) :
    ∀ (k j : ℕ) (m : MarketEnv), m.closes = closes → j + k ≤ closes.length - 1 →
      m.currentStep = j → m.priceHistorySimulated = closes.take (j + 1) →
      (m.run 0 k).priceHistorySimulated = closes.take (j + k + 1) := by
  intro k
  induction k with
  | zero => intro j m _ _ _ hhist; simpa [MarketEnv.run] using hhist
  | succ k ih =>
      intro j m hcl hle hstep hhist
      have hlen0 : 0 < closes.length := by omega
      have hj1 : j + 1 < closes.length := by omega
      have hguard : ¬ (m.totalBars - 1 ≤ m.currentStep) := by
        simp only [MarketEnv.totalBars, hcl, hstep]; omega
      have himp : m.impactOf 0 = 0 := by
        simp [MarketEnv.impactOf]
      have hget : closes.getD (j + 1) 0 = closes[j + 1] :=
        List.getD_eq_getElem closes 0 hj1
      have hmem : closes[j + 1] ∈ closes := List.getElem_mem hj1
      have hone : closes[j + 1] * (1 + (0 : ℚ)) = closes[j + 1] := by ring
      have hfl : max ((m.closes.getD (j + 1) 0) * (1 + m.impactOf 0)) (1/100)
          = closes[j + 1] := by
        rw [hcl, himp, hget, hone, max_eq_left (hfloor _ hmem)]
      have hstep_eq : (m.step 0).1 =
          { m with
              currentStep := j + 1
              currentPrice := closes[j + 1]
              priceHistorySimulated :=
                m.priceHistorySimulated ++ [closes[j + 1]] } := by
        unfold MarketEnv.step
        rw [if_neg hguard]
        simp only [hstep, hfl]
      have hrun : (m.run 0 (k + 1)) = ((m.step 0).1).run 0 k := rfl
      rw [hrun]
      have hres := ih (j + 1) ((m.step 0).1)
        (by rw [hstep_eq]; exact hcl) (by omega) (by rw [hstep_eq])
        (by rw [hstep_eq]
            simp only [hhist]
            exact List.take_concat_get' closes (j + 1) hj1)
      rw [hres]
      congr 1
      omega

/-- Claim C7 (amended): if every call to `MarketEnvironment.step` over a
full run passes `net_volume = 0` and every historical close is at least the
positive floor 0.01, then the simulated price series equals the historical
close series exactly. -/
theorem zero_volume_full_run_is_replay (closes : List ℚ) (s : ℚ)
    (hne : closes ≠ []) (hfloor : ∀ c ∈ closes, 1/100 ≤ c) :
    ((MarketEnv.init closes s).run 0 (closes.length - 1)).priceHistorySimulated
      = closes := by
  have hlen0 : 0 < closes.length := List.length_pos.mpr hne
  have h0 := MarketEnv.replay_aux closes hfloor (closes.length - 1) 0
    (MarketEnv.init closes s) rfl (by omega) rfl ?_
  · rw [h0]
    have : 0 + (closes.length - 1) + 1 = closes.length := by omega
    rw [this, List.take_length]
  · cases closes with
    | nil => exact absurd rfl hne
    | cons a t => simp [MarketEnv.init]

/-- Witness for C7 (amended) at a concrete two-bar series. -/
theorem zero_volume_full_run_is_replay_witness :
    ((MarketEnv.init [1, 2] (1/1000)).run 0 1).priceHistorySimulated = [1, 2] := by
  have h := zero_volume_full_run_is_replay [1, 2] (1/1000)
    (by simp) (by norm_num)
  simpa using h

/-- Claim C10: `review_trade` is total — for every input (including
degenerate ones: zero volume, zero portfolio value, zero price, missing
fields, which are the structure defaults) it returns one of the three
verdict decisions, and every HOLD or zero-quantity proposal yields
APPROVE with the action unchanged and the burst state untouched. -/
theorem review_trade_total_hold_approves (reg : RegOrders) (agentName : String)
    (action : TradeAction) (agentState : AgentSnapshot) (market : BarInfo)
    (currentStep : ℤ) :
    ((reviewTrade reg agentName action agentState market currentStep).1.decision = "APPROVE"
      ∨ (reviewTrade reg agentName action agentState market currentStep).1.decision = "WARN"
      ∨ (reviewTrade reg agentName action agentState market currentStep).1.decision = "BLOCK")
    ∧ ((action.tyKey.getD "HOLD" = "HOLD" ∨ action.quantity = 0) →
        (reviewTrade reg agentName action agentState market currentStep).1
            = ⟨"APPROVE", action, 0⟩
        ∧ (reviewTrade reg agentName action agentState market currentStep).2 = reg) := by
  by_cases hg : action.tyKey.getD "HOLD" = "HOLD" ∨ action.quantity = 0
  · constructor
    · simp [reviewTrade, if_pos hg]
    · intro _
      simp [reviewTrade, if_pos hg]
  · constructor
    · simp only [reviewTrade, if_neg hg]
      split_ifs <;> simp
    · intro h
      exact absurd h hg

/-- Witness for C10 at a fully degenerate input: zero price, zero volume,
zero portfolio value, HOLD action. -/
theorem review_trade_total_hold_approves_witness :
    (reviewTrade [] "Conservative" ⟨none, some "HOLD", "SIM", 5⟩
        ⟨0, [], 0⟩ ⟨0, 0⟩ 0).1 = ⟨"APPROVE", ⟨none, some "HOLD", "SIM", 5⟩, 0⟩
      ∧ (reviewTrade [] "Conservative" ⟨none, some "HOLD", "SIM", 5⟩
        ⟨0, [], 0⟩ ⟨0, 0⟩ 0).2 = [] :=
  (review_trade_total_hold_approves [] "Conservative" ⟨none, some "HOLD", "SIM", 5⟩
      ⟨0, [], 0⟩ ⟨0, 0⟩ 0).2 (Or.inl rfl)

/-- Claim C4: whenever a reviewed order is "large" (proposed quantity
exceeds 5% of the bar's volume, with the source's `max(volume, 1)`
denominator) and, counting that order, the agent has at least 3 large
orders recorded within the trailing 5-step window, the decision is BLOCK
and the adjusted action is coerced to HOLD with quantity 0, overriding any
earlier capping in the same review. -/
theorem burst_blocks_and_zeroes (reg : RegOrders) (agentName : String)
    (action : TradeAction) (agentState : AgentSnapshot) (market : BarInfo)
    (currentStep : ℤ)
    (hty : action.tyKey.getD "HOLD" ≠ "HOLD") (hq : action.quantity ≠ 0)
    (hlarge : isLargeOrder action.quantity (max market.volume 1) = true)
    (hcount : 3 ≤ (prunedOrders reg agentName currentStep).length) :
    (reviewTrade reg agentName action agentState market currentStep).1.decision = "BLOCK"
    ∧ (reviewTrade reg agentName action agentState market currentStep).1.adjusted.tyKey
        = some "HOLD"
    ∧ (reviewTrade reg agentName action agentState market currentStep).1.adjusted.quantity
        = 0 := by
  have hg : ¬ (action.tyKey.getD "HOLD" = "HOLD" ∨ action.quantity = 0) := by
    push_neg
    exact ⟨hty, hq⟩
  simp only [reviewTrade, if_neg hg]
  have hburst : (isLargeOrder action.quantity (max market.volume 1)
      && decide (3 ≤ (prunedOrders reg agentName currentStep).length)) = true := by
    rw [hlarge, decide_eq_true hcount]
    rfl
  simp only [hburst]
  simp

/-- Helper: with a positive proposed quantity, the position-limit rule
never raises the quantity. -/
theorem rule1Adjusted_quantity_le (action : TradeAction) (heldQty : ℤ)
    (close pv : ℚ) (hq : 0 < action.quantity) :
    (rule1Adjusted action heldQty close pv).quantity ≤ action.quantity := by
  rw [rule1Adjusted]
  split_ifs with hc
  · show rule1MaxAllowed heldQty close pv ≤ action.quantity
    rw [rule1MaxAllowed]
    rcases Bool.and_eq_true _ _ |>.mp hc with ⟨hc1, hc3⟩
    rcases Bool.and_eq_true _ _ |>.mp hc1 with ⟨_, hc2⟩
    have hpv : (0 : ℚ) < pv := of_decide_eq_true hc2
    have hratio : ((heldQty + action.quantity : ℤ) : ℚ) * close / pv > 3/10 :=
      of_decide_eq_true hc3
    split_ifs with hcl
    · set x : ℚ := (3/10 * pv - (heldQty : ℚ) * close) / close with hx
      have hxlt : x < (action.quantity : ℚ) := by
        rw [hx, div_lt_iff hcl]
        have h1 : 3/10 * pv < ((heldQty + action.quantity : ℤ) : ℚ) * close := by
          rw [gt_iff_lt, lt_div_iff hpv] at hratio
          linarith
        push_cast at h1 ⊢
        linarith
      rcases le_or_lt 0 x with hx0 | hx0
      · have : (pyTrunc x : ℚ) ≤ x := pyTrunc_cast_le x hx0
        have h2 : (pyTrunc x : ℚ) < (action.quantity : ℚ) := lt_of_le_of_lt this hxlt
        have h3 : pyTrunc x ≤ action.quantity := le_of_lt (by exact_mod_cast h2)
        exact max_le (le_of_lt hq) h3
      · have h3 : pyTrunc x ≤ 0 := pyTrunc_nonpos x hx0
        exact max_le (le_of_lt hq) (le_trans h3 (le_of_lt hq))
    · exact max_le (le_of_lt hq) (le_of_lt hq)
  · exact le_refl _

/-- Helper: with a non-negative proposed quantity the position-limit
output is non-negative. -/
theorem rule1Adjusted_quantity_nonneg (action : TradeAction) (heldQty : ℤ)
    (close pv : ℚ) (hq : 0 ≤ action.quantity) :
    0 ≤ (rule1Adjusted action heldQty close pv).quantity := by
  rw [rule1Adjusted]
  split_ifs
  · exact le_max_left _ _
  · exact hq

/-- Helper: on the non-HOLD path, the final adjusted quantity never
exceeds the position-limit rule's output (rules 2 and 3 only lower or
zero it), as long as that output is non-negative. -/
theorem reviewTrade_adjusted_le_rule1 (reg : RegOrders) (agentName : String)
    (action : TradeAction) (agentState : AgentSnapshot) (market : BarInfo)
    (currentStep : ℤ)
    (hg : ¬ (action.tyKey.getD "HOLD" = "HOLD" ∨ action.quantity = 0))
    (h1 : 0 ≤ (rule1Adjusted action (posGet agentState.positions action.ticker)
        market.close agentState.portfolioValue).quantity) :
    (reviewTrade reg agentName action agentState market currentStep).1.adjusted.quantity
      ≤ (rule1Adjusted action (posGet agentState.positions action.ticker)
          market.close agentState.portfolioValue).quantity := by
  simp only [reviewTrade, if_neg hg]
  split_ifs <;> simp_all

/-- Counterexample to claim C3 as stated: BUY of 1 share when the held
position (100 shares at price 1) already equals the whole portfolio value
(100).  The rule caps the buy to 0, yet
`(held + adjusted) * price / portfolio = 1 > 0.30`. -/
theorem position_limit_counterexample :
    ¬ ((((posGet [("TCK", 100)] "TCK" : ℤ) : ℚ)
          + ((reviewTrade [] "Momentum" ⟨none, some "BUY", "TCK", 1⟩
              ⟨0, [("TCK", 100)], 100⟩ ⟨1, 1000⟩ 0).1.adjusted.quantity : ℚ))
        * (1 : ℚ) / 100 ≤ 3/10) := by
  have hq : (reviewTrade [] "Momentum" ⟨none, some "BUY", "TCK", 1⟩
      ⟨0, [("TCK", 100)], 100⟩ ⟨1, 1000⟩ 0).1.adjusted.quantity = 0 := by
    norm_num [reviewTrade, rule1Cond, rule1Adjusted, rule1MaxAllowed, rule2Cond,
      rule2Allowed, isLargeOrder, prunedOrders, regGet, posGet, pyTrunc,
      isAdversarialName, charsContain]
    rw [if_neg (by decide : ¬("BUY" : String) = "HOLD")]
    have h70 : ⌈(-70 : ℚ)⌉ = -70 := by
      have := Int.ceil_intCast (α := ℚ) (-70)
      exact_mod_cast this
    simp [h70]
  rw [hq]
  norm_num [posGet]

/-- Claim C3 (amended): for every review of a BUY (positive quantity,
positive price, positive portfolio value), the adjusted quantity `q'`
satisfies `(held + q') * price ≤ max(0.30 * portfolioValue, held * price)`
— i.e. the 30% bound holds unless the held position alone already exceeded
it, in which case the buy is capped to 0 and the pre-existing excess
remains. -/
theorem position_limit_within_cap (reg : RegOrders) (agentName : String)
    (action : TradeAction) (agentState : AgentSnapshot) (market : BarInfo)
    (currentStep : ℤ)
    (hty : action.tyKey.getD "HOLD" = "BUY") (hq : 0 < action.quantity)
    (hclose : 0 < market.close) (hpv : 0 < agentState.portfolioValue) :
    (((posGet agentState.positions action.ticker : ℤ) : ℚ)
        + ((reviewTrade reg agentName action agentState market
            currentStep).1.adjusted.quantity : ℚ)) * market.close
      ≤ max ((3/10) * agentState.portfolioValue)
          (((posGet agentState.positions action.ticker : ℤ) : ℚ) * market.close) := by
  have hg : ¬ (action.tyKey.getD "HOLD" = "HOLD" ∨ action.quantity = 0) := by
    push_neg
    rw [hty]
    exact ⟨by simp, ne_of_gt hq⟩
  set held := posGet agentState.positions action.ticker with hheld
  set close := market.close
  set pv := agentState.portfolioValue
  set q1 := (rule1Adjusted action held close pv).quantity with hq1
  have h1nn : 0 ≤ q1 :=
    rule1Adjusted_quantity_nonneg action held close pv (le_of_lt hq)
  have hle : (reviewTrade reg agentName action agentState market
      currentStep).1.adjusted.quantity ≤ q1 :=
    reviewTrade_adjusted_le_rule1 reg agentName action agentState market
      currentStep hg h1nn
  have hstep1 : ((held : ℚ) + ((reviewTrade reg agentName action agentState market
      currentStep).1.adjusted.quantity : ℚ)) * close
      ≤ ((held : ℚ) + (q1 : ℚ)) * close := by
    have : ((reviewTrade reg agentName action agentState market
        currentStep).1.adjusted.quantity : ℚ) ≤ (q1 : ℚ) := by exact_mod_cast hle
    nlinarith
  refine le_trans hstep1 ?_
  -- It remains to bound the position-limit output itself.
  rw [hq1, rule1Adjusted]
  split_ifs with hc
  · -- rule fired: quantity = max 0 (trunc ((0.3*pv - held*close)/close))
    show ((held : ℚ) + (rule1MaxAllowed held close pv : ℚ)) * close ≤ _
    rw [rule1MaxAllowed, if_pos hclose]
    rcases le_or_lt (pyTrunc ((3/10 * pv - (held : ℚ) * close) / close)) 0 with h0 | h0
    · rw [max_eq_left h0]
      push_cast
      simpa using le_max_right ((3 : ℚ)/10 * pv) ((held : ℚ) * close)
    · rw [max_eq_right (le_of_lt h0)]
      set x : ℚ := (3/10 * pv - (held : ℚ) * close) / close with hx
      have hx0 : 0 ≤ x := by
        by_contra hneg
        push_neg at hneg
        exact absurd (pyTrunc_nonpos x hneg) (not_le.mpr h0)
      have htr : (pyTrunc x : ℚ) ≤ x := pyTrunc_cast_le x hx0
      have hxc : x * close = 3/10 * pv - (held : ℚ) * close := by
        rw [hx]
        field_simp
        ring
      have : ((held : ℚ) + (pyTrunc x : ℚ)) * close ≤ 3/10 * pv := by
        nlinarith
      exact le_trans this (le_max_left _ _)
  · -- rule did not fire: since type is BUY and pv > 0, the ratio is ≤ 0.30
    have hratio : ¬ (((held + action.quantity : ℤ) : ℚ) * close / pv > 3/10) := by
      intro hgt
      apply hc
      rw [rule1Cond, hty]
      simp only [beq_self_eq_true, Bool.true_and]
      rw [Bool.and_eq_true, decide_eq_true_eq, decide_eq_true_eq]
      exact ⟨hpv, hgt⟩
    push_neg at hratio
    rw [div_le_iff hpv] at hratio
    have : ((held : ℚ) + (action.quantity : ℚ)) * close ≤ 3/10 * pv := by
      push_cast at hratio
      linarith
    exact le_trans this (le_max_left _ _)

/-- Witness for C3 (amended): BUY of 50 shares at price 1 against an empty
position and portfolio value 100 is capped to 30 shares = 30% exactly. -/
theorem position_limit_within_cap_witness :
    (((posGet [] "SIM" : ℤ) : ℚ)
        + ((reviewTrade [] "Momentum" ⟨none, some "BUY", "SIM", 50⟩
            ⟨100, [], 100⟩ ⟨1, 1000000⟩ 0).1.adjusted.quantity : ℚ)) * (1 : ℚ)
      ≤ max ((3/10) * (100 : ℚ)) (((posGet [] "SIM" : ℤ) : ℚ) * (1 : ℚ)) :=
  position_limit_within_cap [] "Momentum" ⟨none, some "BUY", "SIM", 50⟩
    ⟨100, [], 100⟩ ⟨1, 1000000⟩ 0 (by simp) (by norm_num) (by norm_num) (by norm_num)

/-- Counterexample to claim C5 as stated: a SELL of 5 shares against a bar
with volume 1.  The order-size rule's allowed quantity is
`max(1, int(0.10 * 1)) = 1`, so the adjusted quantity 1 EXCEEDS 10% of the
bar's volume (0.1). -/
theorem order_size_counterexample :
    ¬ (((reviewTrade [] "Momentum" ⟨none, some "SELL", "TCK", 5⟩
          ⟨0, [], 100⟩ ⟨10, 1⟩ 0).1.adjusted.quantity : ℚ)
        ≤ (1 : ℚ) * (1/10)) := by
  have hq : (reviewTrade [] "Momentum" ⟨none, some "SELL", "TCK", 5⟩
      ⟨0, [], 100⟩ ⟨10, 1⟩ 0).1.adjusted.quantity = 1 := by
    have hadv : isAdversarialName "Momentum" = false := by decide
    have h1 : ¬ ("SELL" : String) = "HOLD" := by decide
    have h2 : ¬ ("SELL" : String) = "BUY" := by decide
    have hfl : pyTrunc ((1 : ℚ)/10) = 0 := by
      rw [pyTrunc, if_pos (by norm_num)]
      rw [Int.floor_eq_zero_iff.mpr (by norm_num)]
    norm_num [reviewTrade, rule1Cond, rule1Adjusted, rule1MaxAllowed, rule2Cond,
      rule2Allowed, isLargeOrder, prunedOrders, regGet, posGet, hadv, h1, h2, hfl]
  rw [hq]
  norm_num

/-- Claim C5 (amended): for every review of a non-HOLD positive-quantity
action, the adjusted quantity never exceeds `max(1, int(0.10 *
max(volume, 1)))` (the source's cap, which has a floor of one share rather
than being exactly 10% of volume); whenever the proposed quantity exceeds
10% of `max(volume, 1)` the decision is not APPROVE and, unless the burst
rule blocked the trade, the quantity equals the position-limit-adjusted
quantity capped at that bound (capped, not zeroed). -/
theorem order_size_cap_and_warn (reg : RegOrders) (agentName : String)
    (action : TradeAction) (agentState : AgentSnapshot) (market : BarInfo)
    (currentStep : ℤ)
    (hty : action.tyKey.getD "HOLD" ≠ "HOLD") (hq : 0 < action.quantity) :
    (reviewTrade reg agentName action agentState market
        currentStep).1.adjusted.quantity ≤ rule2Allowed (max market.volume 1)
    ∧ (rule2Cond action.quantity (max market.volume 1) = true →
        (reviewTrade reg agentName action agentState market
            currentStep).1.decision ≠ "APPROVE"
        ∧ ((reviewTrade reg agentName action agentState market
              currentStep).1.decision ≠ "BLOCK" →
            (reviewTrade reg agentName action agentState market
                currentStep).1.adjusted.quantity
              = min (rule1Adjusted action (posGet agentState.positions action.ticker)
                    market.close agentState.portfolioValue).quantity
                  (rule2Allowed (max market.volume 1)))) := by
  have hg : ¬ (action.tyKey.getD "HOLD" = "HOLD" ∨ action.quantity = 0) := by
    push_neg
    exact ⟨hty, ne_of_gt hq⟩
  have hall1 : (1 : ℤ) ≤ rule2Allowed (max market.volume 1) := le_max_left _ _
  have hq1le := rule1Adjusted_quantity_le action
    (posGet agentState.positions action.ticker) market.close
    agentState.portfolioValue hq
  constructor
  · -- the adjusted quantity never exceeds the (floored) cap
    by_cases hr2 : rule2Cond action.quantity (max market.volume 1) = true
    · simp only [reviewTrade, if_neg hg, hr2]
      split_ifs <;> simp <;> omega
    · -- rule 2 silent: the original (hence rule-1-adjusted) quantity is
      -- already within the cap
      have hqle : action.quantity ≤ pyTrunc ((max market.volume 1) * (1/10)) := by
        have hle : (action.quantity : ℚ) ≤ (max market.volume 1) * (1/10) := by
          have := (not_iff_not.mpr decide_eq_true_iff).mpr hr2
          rw [rule2Cond] at hr2
          simpa using not_lt.mp (fun hlt => hr2 (decide_eq_true hlt))
        have hnn : (0 : ℚ) ≤ (max market.volume 1) * (1/10) := by
          have : (1 : ℚ) ≤ max market.volume 1 := le_max_right _ _
          nlinarith
        rw [pyTrunc, if_pos hnn]
        exact Int.le_floor.mpr hle
      have hcap : action.quantity ≤ rule2Allowed (max market.volume 1) :=
        le_trans hqle (le_max_right _ _)
      simp only [reviewTrade, if_neg hg, hr2]
      split_ifs <;> simp <;> omega
  · intro hr2
    constructor
    · -- decision escalates to at least WARN
      simp only [reviewTrade, if_neg hg, hr2]
      split_ifs <;> simp
    · -- unless blocked, the quantity is exactly the capped value
      intro hnb
      by_cases hb : (isLargeOrder action.quantity (max market.volume 1)
          && decide (3 ≤ (prunedOrders reg agentName currentStep).length)) = true
      · exfalso
        apply hnb
        simp only [reviewTrade, if_neg hg, hr2, hb]
        simp
      · simp only [reviewTrade, if_neg hg, hr2, hb]
        simp

/-- Witness for C5 (amended) at the volume-1 input: adjusted quantity is
within the floored cap and the decision escalated. -/
theorem order_size_cap_and_warn_witness :
    (reviewTrade [] "Momentum" ⟨none, some "SELL", "TCK", 5⟩
        ⟨0, [], 100⟩ ⟨10, 1⟩ 0).1.adjusted.quantity ≤ rule2Allowed (max 1 1)
    ∧ (reviewTrade [] "Momentum" ⟨none, some "SELL", "TCK", 5⟩
        ⟨0, [], 100⟩ ⟨10, 1⟩ 0).1.decision ≠ "APPROVE" := by
  have h := order_size_cap_and_warn [] "Momentum" ⟨none, some "SELL", "TCK", 5⟩
    ⟨0, [], 100⟩ ⟨10, 1⟩ 0 (by simp) (by norm_num)
  exact ⟨h.1, (h.2 (by norm_num [rule2Cond])).1⟩

/-- Helper for C1: `agent.act(self._build_whale_dump(agent))` degenerates.
Because the dump decision carries the `"action"` key while `act` reads the
missing `"intent"` key, the resulting action is a HOLD with quantity 0 —
not a SELL of the whale's 500-share position. -/
theorem whale_dump_degenerates_to_hold :
    effectiveType (agentAct 100000 [("SIM", 500)]
        ⟨100, 1000, some 100, none, none⟩ (buildWhaleDump [("SIM", 500)] "SIM"))
      = "HOLD"
    ∧ (agentAct 100000 [("SIM", 500)] ⟨100, 1000, some 100, none, none⟩
        (buildWhaleDump [("SIM", 500)] "SIM")).quantity = 0
    ∧ posGet [("SIM", 500)] "SIM" = 500 := by
  have h1 : ¬ ("HOLD" : String) = "BUY" := by decide
  have h2 : ¬ ("HOLD" : String) = "SELL" := by decide
  refine ⟨?_, ?_, by decide⟩ <;>
    norm_num [agentAct, buildWhaleDump, effectiveType, extractPrice, orFalsy,
      posGet, h1, h2]

/-- Claim C1 (the code at the failing input): on a crash-trigger tick
(crash mode active, trigger step = current step = 7), a whale agent
holding 500 shares has its plan overridden by `_build_whale_dump` — yet
the action actually submitted to the compliance review is a HOLD with
quantity 0, not a full-position SELL, because `act` reads the `"intent"`
key that the dump decision (keyed `"action"`) does not carry. -/
theorem whale_crash_tick_submits_hold :
    ((runTick ⟨"SIM", ⟨100, 1000, some 100, none, none⟩, true, some 7, 7⟩ []
        [⟨⟨"Adversarial", 100000, [("SIM", 500)], true, false⟩,
          ⟨some "SELL", some 1, some "SIM", none, none⟩, true⟩]).reviews.map
        (fun r => (effectiveType r.proposal, r.proposal.quantity)))
      = [("HOLD", 0)]
    ∧ posGet [("SIM", 500)] "SIM" = 500 := by
  have hplan : tickPlan ⟨"SIM", ⟨100, 1000, some 100, none, none⟩, true, some 7, 7⟩
      ⟨⟨"Adversarial", 100000, [("SIM", 500)], true, false⟩,
        ⟨some "SELL", some 1, some "SIM", none, none⟩, true⟩
      = buildWhaleDump [("SIM", 500)] "SIM" := by
    rw [tickPlan, if_pos (by norm_num)]
  have haction : tickAction ⟨"SIM", ⟨100, 1000, some 100, none, none⟩, true, some 7, 7⟩
      ⟨⟨"Adversarial", 100000, [("SIM", 500)], true, false⟩,
        ⟨some "SELL", some 1, some "SIM", none, none⟩, true⟩
      = ⟨some "HOLD", none, "SIM", 0⟩ := by
    rw [tickAction, hplan]
    have h1 : ¬ ("HOLD" : String) = "BUY" := by decide
    have h2 : ¬ ("HOLD" : String) = "SELL" := by decide
    norm_num [agentAct, buildWhaleDump, extractPrice, orFalsy, h1, h2]
  constructor
  · rw [runTick, runTickFrom, List.foldl_cons, List.foldl_nil]
    rw [processAgent, if_neg (by norm_num), if_neg (by norm_num)]
    dsimp only
    rw [haction]
    norm_num [effectiveType]
  · decide

theorem pyTrunc_nonneg (q : ℚ) (hq : 0 ≤ q) : 0 ≤ pyTrunc q := by
  rw [pyTrunc, if_pos hq]
  exact Int.floor_nonneg.mpr hq

theorem posGet_nonneg (ps : List (String × ℤ)) (h : ∀ p ∈ ps, 0 ≤ p.2)
    (t : String) : 0 ≤ posGet ps t := by
  induction ps with
  | nil => simp [posGet]
  | cons p r ih =>
      obtain ⟨k, v⟩ := p
      rw [posGet, List.lookup]
      by_cases hk : t == k
      · simp only [hk]
        exact h (k, v) (by simp)
      · rw [Bool.eq_false_iff.mpr hk]
        exact ih fun q hq => h q (List.mem_cons_of_mem _ hq)

/-- Helper: `act` never proposes a negative quantity, given non-negative
cash, non-negative holdings and a non-negative size factor. -/
theorem agentAct_quantity_nonneg (cash : ℚ) (positions : List (String × ℤ))
    (bar : TickBar) (plan : DecisionPlan) (hc : 0 ≤ cash)
    (hsf : 0 ≤ plan.sizeFactor.getD 0) (hpos : ∀ p ∈ positions, 0 ≤ p.2) :
    0 ≤ (agentAct cash positions bar plan).quantity := by
  rw [agentAct]
  dsimp only
  split_ifs with h1 h2 h3
  · refine pyTrunc_nonneg _ ?_
    have := h1.2
    positivity
  · exact le_max_right _ _
  · exact posGet_nonneg positions hpos _
  · exact le_refl 0

/-- Helper: the review never turns a non-negative quantity negative. -/
theorem reviewTrade_adjusted_quantity_nonneg (reg : RegOrders)
    (agentName : String) (action : TradeAction) (agentState : AgentSnapshot)
    (market : BarInfo) (currentStep : ℤ) (hq : 0 ≤ action.quantity) :
    0 ≤ (reviewTrade reg agentName action agentState market
        currentStep).1.adjusted.quantity := by
  by_cases hg : action.tyKey.getD "HOLD" = "HOLD" ∨ action.quantity = 0
  · simp only [reviewTrade, if_pos hg]
    exact hq
  · have h1 := rule1Adjusted_quantity_nonneg action
      (posGet agentState.positions action.ticker) market.close
      agentState.portfolioValue hq
    have h2 : (0 : ℤ) ≤ rule2Allowed (max market.volume 1) :=
      le_trans (by norm_num) (le_max_left _ _)
    simp only [reviewTrade, if_neg hg]
    split_ifs <;> simp_all <;> exact le_min h1 h2

/-- Helper: `act` output always uses the `"action"` key and never a
`"type"` key. -/
theorem agentAct_tyKey_none (cash : ℚ) (positions : List (String × ℤ))
    (bar : TickBar) (plan : DecisionPlan) :
    (agentAct cash positions bar plan).tyKey = none := rfl

/-- Helper: on an action dict with no `"type"` key, `review_trade`
resolves the action type to the default `"HOLD"` and returns immediately
with APPROVE and the action unchanged. -/
theorem reviewTrade_no_tyKey (reg : RegOrders) (agentName : String)
    (action : TradeAction) (agentState : AgentSnapshot) (market : BarInfo)
    (currentStep : ℤ) (h : action.tyKey = none) :
    reviewTrade reg agentName action agentState market currentStep
      = (⟨"APPROVE", action, 0⟩, reg) := by
  simp [reviewTrade, h]

/-- Helper: whenever the action produced by `act` is (effectively) a SELL,
its quantity is at most the held quantity of its ticker. -/
theorem agentAct_sell_le_held (cash : ℚ) (positions : List (String × ℤ))
    (bar : TickBar) (plan : DecisionPlan) (hpos : ∀ p ∈ positions, 0 ≤ p.2)
    (hsell : effectiveType (agentAct cash positions bar plan) = "SELL") :
    (agentAct cash positions bar plan).quantity
      ≤ posGet positions (agentAct cash positions bar plan).ticker := by
  have hheld : 0 ≤ posGet positions (plan.ticker.getD "") :=
    posGet_nonneg positions hpos _
  have hint : plan.intent.getD "HOLD" = "SELL" := by
    rw [agentAct] at hsell
    rw [effectiveType] at hsell
    dsimp only at hsell
    by_cases he : plan.intent.getD "HOLD" = ""
    · rw [if_pos he] at hsell
      simp at hsell
    · rwa [if_neg he] at hsell
  show (agentAct cash positions bar plan).quantity ≤ posGet positions (plan.ticker.getD "")
  rw [agentAct]
  dsimp only
  rw [hint]
  rw [if_neg (by simp)]
  rw [if_pos rfl]
  set held := posGet positions (plan.ticker.getD "") with hh
  set sf := plan.sizeFactor.getD 0 with hsf
  split_ifs with hlt
  · -- size_factor < 1.0: max(int(held * sf), 0) ≤ held
    refine max_le ?_ hheld
    rcases le_or_lt 0 ((held : ℚ) * sf) with hnn | hneg
    · have hheldQ : (0 : ℚ) ≤ (held : ℚ) := by exact_mod_cast hheld
      have h1 : (held : ℚ) * sf ≤ (held : ℚ) := by nlinarith
      have h2 : (pyTrunc ((held : ℚ) * sf) : ℚ) ≤ (held : ℚ) :=
        le_trans (pyTrunc_cast_le _ hnn) h1
      exact_mod_cast h2
    · exact le_trans (pyTrunc_nonpos _ hneg) hheld
  · exact le_refl _

/-- Helper: the size factor the tick hands to `act` is non-negative when
the agent's own plan has a non-negative one (the whale-dump decision has
no size factor; it defaults to 0). -/
theorem tickPlan_sizeFactor_nonneg (cfg : TickConfig) (ta : TickAgent)
    (h : 0 ≤ ta.plan.sizeFactor.getD 0) :
    0 ≤ (tickPlan cfg ta).sizeFactor.getD 0 := by
  rw [tickPlan]
  split_ifs
  · simp [buildWhaleDump]
  · exact h

/-- Helper: the reviewed adjusted quantity of a processed agent is
non-negative. -/
theorem tickReview_adjusted_nonneg (cfg : TickConfig) (st : TickState)
    (ta : TickAgent) (hc : 0 ≤ ta.agent.cash)
    (hsf : 0 ≤ ta.plan.sizeFactor.getD 0)
    (hpos : ∀ p ∈ ta.agent.positions, 0 ≤ p.2) :
    0 ≤ (tickReview cfg st ta).1.adjusted.quantity := by
  rw [tickReview]
  refine reviewTrade_adjusted_quantity_nonneg _ _ _ _ _ _ ?_
  rw [tickAction]
  exact agentAct_quantity_nonneg _ _ _ _ hc
    (tickPlan_sizeFactor_nonneg cfg ta hsf) hpos

/-- Helper: processing one agent preserves the C2 loop invariant. -/
theorem processAgent_netVolume_invariant (cfg : TickConfig) (st : TickState)
    (ta : TickAgent) (hc : 0 ≤ ta.agent.cash)
    (hsf : 0 ≤ ta.plan.sizeFactor.getD 0)
    (hpos : ∀ p ∈ ta.agent.positions, 0 ≤ p.2)
    (hinv : st.netVolume = ((st.reviews.map recordSigned).sum : ℤ)) :
    (processAgent cfg st ta).netVolume
      = (((processAgent cfg st ta).reviews.map recordSigned).sum : ℤ) := by
  by_cases hact : ta.agent.active = true
  swap
  · rw [processAgent, if_pos (by simpa using hact)]
    exact hinv
  by_cases hhal : ta.agent.halted = true
  · rw [processAgent, if_neg (by simpa using hact), if_pos hhal]
    exact hinv
  have hadj : 0 ≤ (tickReview cfg st ta).1.adjusted.quantity :=
    tickReview_adjusted_nonneg cfg st ta hc hsf hpos
  rw [processAgent, if_neg (by simpa using hact), if_neg hhal]
  dsimp only
  rw [List.map_append, List.sum_append, Int.cast_add, ← hinv]
  simp only [List.map_cons, List.map_nil, List.sum_cons, List.sum_nil, add_zero]
  rw [recordSigned]
  dsimp only
  by_cases hb : (tickReview cfg st ta).1.decision = "BLOCK"
  · rw [if_pos hb, if_neg (by simp [hb])]
    simp
  · rw [if_neg hb]
    by_cases hq : 0 < (tickReview cfg st ta).1.adjusted.quantity
    · rw [if_pos ⟨hb, hq⟩, signedQty]
      by_cases hbuy : effectiveType (tickReview cfg st ta).1.adjusted = "BUY"
      · rw [if_pos hbuy, if_pos hbuy]
      · rw [if_neg hbuy, if_neg hbuy]
        by_cases hsell : effectiveType (tickReview cfg st ta).1.adjusted = "SELL"
        · rw [if_pos hsell, if_pos hsell]
          push_cast
          ring
        · rw [if_neg hsell, if_neg hsell]
          simp
    · rw [if_neg (by tauto)]
      have hzero : (tickReview cfg st ta).1.adjusted.quantity = 0 :=
        le_antisymm (not_lt.mp hq) hadj
      rw [signedQty]
      split_ifs <;> simp [hzero]

/-- Helper: the loop invariant for C2 over the whole agent list. -/
theorem runTickFrom_netVolume_invariant (cfg : TickConfig) :
    ∀ (agents : List TickAgent) (st : TickState),
      (∀ ta ∈ agents, 0 ≤ ta.agent.cash ∧ 0 ≤ ta.plan.sizeFactor.getD 0
        ∧ ∀ p ∈ ta.agent.positions, 0 ≤ p.2) →
      st.netVolume = ((st.reviews.map recordSigned).sum : ℤ) →
      (runTickFrom cfg st agents).netVolume
        = (((runTickFrom cfg st agents).reviews.map recordSigned).sum : ℤ) := by
  intro agents
  induction agents with
  | nil => intro st _ hinv; simpa [runTickFrom] using hinv
  | cons ta rest ih =>
      intro st hall hinv
      have hta := hall ta (by simp)
      exact ih (processAgent cfg st ta)
        (fun ta' h => hall ta' (List.mem_cons_of_mem _ h))
        (processAgent_netVolume_invariant cfg st ta hta.1 hta.2.1 hta.2.2 hinv)

/-- Claim C2: for every executed tick, the `net_volume` passed to
`MarketEnvironment.step` equals the sum over all reviews performed that
tick of the signed adjusted quantity (+BUY / −SELL / 0 otherwise)
restricted to non-BLOCK verdicts.  Hypotheses: every agent starts the
tick with non-negative cash and holdings and a non-negative plan size
factor (as produced by every strategy's `reason`). -/
theorem net_volume_matches_signed_reviews (cfg : TickConfig) (reg0 : RegOrders)
    (agents : List TickAgent)
    (h : ∀ ta ∈ agents, 0 ≤ ta.agent.cash ∧ 0 ≤ ta.plan.sizeFactor.getD 0
        ∧ ∀ p ∈ ta.agent.positions, 0 ≤ p.2) :
    (runTick cfg reg0 agents).netVolume
      = (((runTick cfg reg0 agents).reviews.map recordSigned).sum : ℤ) := by
  exact runTickFrom_netVolume_invariant cfg agents ⟨reg0, 0, [], []⟩ h (by simp)

/-- Witness for C2: a two-agent tick (one buyer plan, one seller plan). -/
theorem net_volume_matches_signed_reviews_witness :
    (runTick ⟨"SIM", ⟨10, 1000000, none, none, none⟩, false, none, 0⟩ []
        [⟨⟨"Momentum", 1000, [], true, false⟩, ⟨some "BUY", some 1, some "SIM", none, none⟩, false⟩,
         ⟨⟨"Conservative", 0, [("SIM", 7)], true, false⟩, ⟨some "SELL", some 1, some "SIM", none, none⟩, false⟩]).netVolume
      = (((runTick ⟨"SIM", ⟨10, 1000000, none, none, none⟩, false, none, 0⟩ []
        [⟨⟨"Momentum", 1000, [], true, false⟩, ⟨some "BUY", some 1, some "SIM", none, none⟩, false⟩,
         ⟨⟨"Conservative", 0, [("SIM", 7)], true, false⟩, ⟨some "SELL", some 1, some "SIM", none, none⟩, false⟩]).reviews.map recordSigned).sum : ℤ) := by
  refine net_volume_matches_signed_reviews _ _ _ ?_
  intro ta hta
  fin_cases hta <;> norm_num

/-- Claim C9: for every compliance review performed during a tick, if the
adjusted action is (effectively) a SELL then its quantity does not exceed
the quantity of that ticker held by the proposing agent at review time
(as recorded in the agent-state snapshot handed to the regulator). -/
theorem reviewed_sell_within_holdings (cfg : TickConfig) (reg0 : RegOrders)
    (agents : List TickAgent)
    (hpos : ∀ ta ∈ agents, ∀ p ∈ ta.agent.positions, 0 ≤ p.2) :
    ∀ r ∈ (runTick cfg reg0 agents).reviews,
      effectiveType r.verdict.adjusted = "SELL" →
      r.verdict.adjusted.quantity
        ≤ posGet r.agentState.positions r.verdict.adjusted.ticker := by
  suffices h : ∀ (ags : List TickAgent) (st : TickState),
      (∀ ta ∈ ags, ∀ p ∈ ta.agent.positions, 0 ≤ p.2) →
      (∀ r ∈ st.reviews, effectiveType r.verdict.adjusted = "SELL" →
        r.verdict.adjusted.quantity
          ≤ posGet r.agentState.positions r.verdict.adjusted.ticker) →
      ∀ r ∈ (runTickFrom cfg st ags).reviews,
        effectiveType r.verdict.adjusted = "SELL" →
        r.verdict.adjusted.quantity
          ≤ posGet r.agentState.positions r.verdict.adjusted.ticker by
    exact h agents ⟨reg0, 0, [], []⟩ hpos (by simp)
  intro ags
  induction ags with
  | nil => intro st _ hst; simpa [runTickFrom] using hst
  | cons ta rest ih =>
      intro st hall hst
      have hrest := fun ta' h => hall ta' (List.mem_cons_of_mem _ h)
      refine ih (processAgent cfg st ta) hrest ?_
      have hrv : tickReview cfg st ta
          = (⟨"APPROVE", tickAction cfg ta, 0⟩, st.regOrders) := by
        rw [tickReview]
        exact reviewTrade_no_tyKey _ _ _ _ _ _ (agentAct_tyKey_none _ _ _ _)
      by_cases hact : ta.agent.active = true
      swap
      · rw [processAgent, if_pos (by simpa using hact)]
        exact hst
      by_cases hhal : ta.agent.halted = true
      · rw [processAgent, if_neg (by simpa using hact), if_pos hhal]
        exact hst
      rw [processAgent, if_neg (by simpa using hact), if_neg hhal]
      dsimp only
      intro r hr
      rcases List.mem_append.mp hr with hold | hnew
      · exact hst r hold
      · have hrec : r = ⟨ta.agent.name, tickAction cfg ta, tickSnapshot cfg ta,
            (tickReview cfg st ta).1⟩ := by
          simpa using hnew
        subst hrec
        rw [hrv]
        dsimp only
        intro hsell
        show (tickAction cfg ta).quantity
          ≤ posGet (tickSnapshot cfg ta).positions (tickAction cfg ta).ticker
        rw [tickSnapshot]
        rw [tickAction] at hsell ⊢
        exact agentAct_sell_le_held ta.agent.cash ta.agent.positions cfg.bar
          (tickPlan cfg ta) (hall ta (by simp)) hsell

/-- Counterexample to claim C8 as stated: with high-water mark 100000 and
portfolio value 90004, the true drawdown is -9.996% — NOT ≤ -10% — yet
the breaker halts the agent, because the code compares the drawdown
rounded to two decimals (-10.00) against the threshold. -/
theorem circuit_breaker_counterexample :
    (breakerStep ⟨100000, false⟩ 90004).halted = true
    ∧ ¬ (((90004 : ℚ) - 100000) / 100000 ≤ -(10 : ℚ)/100) := by
  constructor
  · have hmax : max (100000 : ℚ) 90004 = 100000 := by norm_num
    have hfl : ⌊(-4998 : ℚ)/5⌋ = -1000 := by
      apply Int.floor_eq_iff.mpr
      constructor <;> norm_num
    have hdd : ddPctRounded (100000 : ℚ) 90004 = -10 := by
      rw [ddPctRounded, if_pos (by norm_num)]
      have harg : ((90004 : ℚ) - 100000) / 100000 * 100 = (-2499 : ℚ)/250 := by
        norm_num
      have harg2 : (-2499 : ℚ)/250 * 100 = (-4998 : ℚ)/5 := by norm_num
      rw [harg, pyRound2, harg2, roundHalfEven]
      rw [hfl]
      norm_num
    rw [breakerStep]
    dsimp only
    rw [hmax, hdd]
    norm_num
  · norm_num

/-- Claim C8 (amended): the per-agent circuit breaker is sticky — once
halted the agent stays halted under every subsequent per-tick evaluation
— and it activates exactly on the first evaluation at which the
drawdown-from-high-water-mark ROUNDED TO TWO DECIMAL PLACES (as a
percentage, ties to even) is ≤ -10.0; this can fire with a true drawdown
as shallow as -9.995%. -/
theorem circuit_breaker_sticky_first_trip (s : BreakerState) (pvs : List ℚ) :
    (s.halted = true → (breakerRun s pvs).halted = true)
    ∧ ((breakerRun s pvs).halted = true ↔
        s.halted = true ∨ ∃ i, ∃ h : i < pvs.length,
          ddPctRounded (max (breakerRun s (pvs.take i)).peakValue (pvs.get ⟨i, h⟩))
            (pvs.get ⟨i, h⟩) ≤ -10) := by
  induction pvs generalizing s with
  | nil =>
      constructor
      · intro h
        simpa [breakerRun] using h
      · simp [breakerRun]
  | cons pv rest ih =>
      have hrun : breakerRun s (pv :: rest) = breakerRun (breakerStep s pv) rest := rfl
      have hstep : (breakerStep s pv).halted
          = (s.halted || decide (ddPctRounded (max s.peakValue pv) pv ≤ -10)) := rfl
      constructor
      · intro h
        rw [hrun]
        refine (ih (breakerStep s pv)).1 ?_
        rw [hstep, h]
        simp
      · rw [hrun, (ih (breakerStep s pv)).2]
        constructor
        · rintro (hh | ⟨i, hi, hc⟩)
          · rw [hstep] at hh
            rcases (by simpa using hh :
                s.halted = true ∨ ddPctRounded (max s.peakValue pv) pv ≤ -10) with h1 | h2
            · exact Or.inl h1
            · refine Or.inr ⟨0, by simp, ?_⟩
              simpa [breakerRun] using h2
          · refine Or.inr ⟨i + 1, by simpa using Nat.succ_lt_succ hi, ?_⟩
            simpa [breakerRun] using hc
        · rintro (hh | ⟨i, hi, hc⟩)
          · refine Or.inl ?_
            rw [hstep, hh]
            simp
          · cases i with
            | zero =>
                refine Or.inl ?_
                rw [hstep]
                have h2 : ddPctRounded (max s.peakValue pv) pv ≤ -10 := by
                  simpa [breakerRun] using hc
                simp [h2]
            | succ j =>
                refine Or.inr ⟨j, by simp at hi; omega, ?_⟩
                simpa [breakerRun] using hc

/-- Witness for C8 (amended): an already-halted agent stays halted after
a further evaluation. -/
theorem circuit_breaker_sticky_first_trip_witness :
    (breakerRun ⟨100000, true⟩ [95000]).halted = true :=
  (circuit_breaker_sticky_first_trip ⟨100000, true⟩ [95000]).1 rfl

/-- Witness for C9: in a concrete one-agent tick (seller holding 7
shares), the single review's adjusted action is a SELL within holdings. -/
theorem reviewed_sell_within_holdings_witness :
    ((runTick ⟨"SIM", ⟨10, 1000000, none, none, none⟩, false, none, 0⟩ []
        [⟨⟨"Conservative", 0, [("SIM", 7)], true, false⟩,
          ⟨some "SELL", some 1, some "SIM", none, none⟩, false⟩]).reviews.map
      (fun r => decide (effectiveType r.verdict.adjusted = "SELL")
        && decide (r.verdict.adjusted.quantity
            ≤ posGet r.agentState.positions r.verdict.adjusted.ticker)))
      = [true] := by
  have h := reviewed_sell_within_holdings
    ⟨"SIM", ⟨10, 1000000, none, none, none⟩, false, none, 0⟩ []
    [⟨⟨"Conservative", 0, [("SIM", 7)], true, false⟩,
      ⟨some "SELL", some 1, some "SIM", none, none⟩, false⟩]
    (by intro ta hta; fin_cases hta <;> norm_num)
  have haction : tickAction ⟨"SIM", ⟨10, 1000000, none, none, none⟩, false, none, 0⟩
      ⟨⟨"Conservative", 0, [("SIM", 7)], true, false⟩,
        ⟨some "SELL", some 1, some "SIM", none, none⟩, false⟩
      = ⟨some "SELL", none, "SIM", 7⟩ := by
    rw [tickAction, tickPlan, if_neg (by norm_num)]
    have h1 : ¬ ("SELL" : String) = "BUY" := by decide
    norm_num [agentAct, extractPrice, orFalsy, posGet, h1]
  have hrun : (runTick ⟨"SIM", ⟨10, 1000000, none, none, none⟩, false, none, 0⟩ []
      [⟨⟨"Conservative", 0, [("SIM", 7)], true, false⟩,
        ⟨some "SELL", some 1, some "SIM", none, none⟩, false⟩]).reviews
      = [⟨"Conservative", ⟨some "SELL", none, "SIM", 7⟩,
          tickSnapshot ⟨"SIM", ⟨10, 1000000, none, none, none⟩, false, none, 0⟩
            ⟨⟨"Conservative", 0, [("SIM", 7)], true, false⟩,
              ⟨some "SELL", some 1, some "SIM", none, none⟩, false⟩,
          ⟨"APPROVE", ⟨some "SELL", none, "SIM", 7⟩, 0⟩⟩] := by
    rw [runTick, runTickFrom, List.foldl_cons, List.foldl_nil]
    rw [processAgent, if_neg (by norm_num), if_neg (by norm_num)]
    dsimp only
    rw [tickReview, reviewTrade_no_tyKey _ _ _ _ _ _
      (by rw [tickAction]; exact agentAct_tyKey_none _ _ _ _), haction]
    simp
  rw [hrun] at h ⊢
  have hsell : effectiveType ⟨some "SELL", none, "SIM", 7⟩ = "SELL" := by
    have hne : ¬ ("SELL" : String) = "" := by decide
    norm_num [effectiveType, hne]
  have hq := h _ (List.mem_singleton_self _) hsell
  simp only [List.map_cons, List.map_nil]
  rw [decide_eq_true hsell, decide_eq_true hq]
  rfl

/-- Witness for C4: an agent with two recorded large orders at steps 3 and
4 places a third large order at step 5. -/
theorem burst_blocks_and_zeroes_witness :
    (reviewTrade [("NoiseTrader", [3, 4])] "NoiseTrader"
        ⟨none, some "SELL", "SIM", 100⟩ ⟨0, [("SIM", 200)], 100⟩
        ⟨10, 100⟩ 5).1.decision = "BLOCK"
    ∧ (reviewTrade [("NoiseTrader", [3, 4])] "NoiseTrader"
        ⟨none, some "SELL", "SIM", 100⟩ ⟨0, [("SIM", 200)], 100⟩
        ⟨10, 100⟩ 5).1.adjusted.tyKey = some "HOLD"
    ∧ (reviewTrade [("NoiseTrader", [3, 4])] "NoiseTrader"
        ⟨none, some "SELL", "SIM", 100⟩ ⟨0, [("SIM", 200)], 100⟩
        ⟨10, 100⟩ 5).1.adjusted.quantity = 0 :=
  burst_blocks_and_zeroes [("NoiseTrader", [3, 4])] "NoiseTrader"
    ⟨none, some "SELL", "SIM", 100⟩ ⟨0, [("SIM", 200)], 100⟩ ⟨10, 100⟩ 5
    (by simp) (by simp)
    (by norm_num [isLargeOrder])
    (by norm_num [prunedOrders, regGet])
